import Mathlib

/-!
Verification of the pickle-ball analysis pipeline.

Shallow embedding of the Python sources:
* `src/python/biomechanics/angles.py`      → namespace `Angles`
* `src/python/biomechanics/injury_risk.py` → namespace `InjuryRisk`
* `src/python/classification/heuristics.py`
  and `classifier.py`                      → namespace `Classify`
* `src/python/track.py` (identity tracker
  and stroke post-processing)              → namespace `Tracker` / `Pipeline`

Python floats are modelled as exact rationals (`ℚ`); the only places where a
genuinely real-valued operation occurs (`arccos`, `sqrt`) are modelled over `ℝ`
or, where the square root is immediately compared against a nonnegative
threshold or used in an argmin, replaced by the equivalent comparison of
squares (noted locally).  Python dictionaries of per-frame measurements are
modelled as records whose fields carry the values `dict.get` would return.
-/

namespace Angles

/-- A MediaPipe landmark object with x, y, z attributes
(`calculate_angle` inputs in `angles.py`). -/
structure Landmark where
  x : ℝ
  y : ℝ
  z : ℝ

/-- Embedding of `calculate_angle(a, b, c)` from `angles.py` lines 42-70.
An absent landmark is `none` (Python: `if not all([a, b, c]): return 0.0`).
The cosine is `dot(ba, bc) / (‖ba‖ * ‖bc‖ + 1e-6)`, clipped to `[-1, 1]`,
then `arccos` converted to degrees. -/
noncomputable def calculate_angle (a b c : Option Landmark) : ℝ :=
  match a, b, c with
  | some a, some b, some c =>
    let ba1 := a.x - b.x
    let ba2 := a.y - b.y
    let ba3 := a.z - b.z
    let bc1 := c.x - b.x
    let bc2 := c.y - b.y
    let bc3 := c.z - b.z
    let dot := ba1 * bc1 + ba2 * bc2 + ba3 * bc3
    let normBa := Real.sqrt (ba1 ^ 2 + ba2 ^ 2 + ba3 ^ 2)
    let normBc := Real.sqrt (bc1 ^ 2 + bc2 ^ 2 + bc3 ^ 2)
    let cosine := dot / (normBa * normBc + 1 / 1000000)
    let clipped := max (-1) (min 1 cosine)
    Real.arccos clipped * (180 / Real.pi)
  | _, _, _ => 0

end Angles

namespace InjuryRisk

/-- The fields of the validated-biomechanics dictionary that
`InjuryRiskDetector.analyze_frame` reads, with the defaults the Python
`dict.get` calls supply (`'safe'`, `'good'`, `'normal'`, `True`). -/
structure Biomech where
  shoulder_risk_level : String := "safe"
  hip_power_generation : String := "good"
  knee_stress_level : String := "normal"
  elbow_within_optimal : Bool := true
deriving DecidableEq

/-- The cross-frame state of `InjuryRiskDetector`: the four risk counters and
the length of `frame_history` (the only aspect of the stored history the
summary uses). -/
structure DetectorState where
  total_frames : ℕ
  shoulder_overuse : ℕ
  elbow_strain : ℕ
  knee_stress : ℕ
  poor_kinetic_chain : ℕ
deriving DecidableEq

/-- State produced by `InjuryRiskDetector.__init__` / `reset`. -/
def initState : DetectorState :=
  { total_frames := 0, shoulder_overuse := 0, elbow_strain := 0,
    knee_stress := 0, poor_kinetic_chain := 0 }

/-- Embedding of `InjuryRiskDetector.analyze_frame` (`injury_risk.py`
lines 39-120): the four rule checks and the counter increments.  Note that a
poor kinetic chain increments `elbow_strain` as well (line 89), and check 4
can increment `elbow_strain` a second time in the same frame (line 111). -/
def analyze_frame (st : DetectorState) (bio : Biomech) (stroke_type : String) :
    DetectorState :=
  let st :=
    if (bio.shoulder_risk_level = "high" ∨ bio.shoulder_risk_level = "critical") ∧
        stroke_type ≠ "overhead" then
      { st with shoulder_overuse := st.shoulder_overuse + 1 }
    else st
  let st :=
    if bio.hip_power_generation = "poor" ∧
        (stroke_type = "groundstroke" ∨ stroke_type = "serve" ∨ stroke_type = "overhead") then
      { st with poor_kinetic_chain := st.poor_kinetic_chain + 1,
                elbow_strain := st.elbow_strain + 1 }
    else st
  let st :=
    if bio.knee_stress_level = "high" then
      { st with knee_stress := st.knee_stress + 1 }
    else st
  let st :=
    if ¬ bio.elbow_within_optimal then
      { st with elbow_strain := st.elbow_strain + 1 }
    else st
  { st with total_frames := st.total_frames + 1 }

/-- A whole session: `analyze_frame` folded over a list of per-frame inputs
starting from a fresh detector. -/
def runSession (frames : List (Biomech × String)) : DetectorState :=
  frames.foldl (fun st p => analyze_frame st p.1 p.2) initState

/-- The Python `round(x, 1)` (modelled with round-half-up on `ℚ`; the half-to-even
difference at exact ties does not affect any stated result). -/
def round1 (x : ℚ) : ℚ := (round (x * 10) : ℚ) / 10

/-- The session summary dictionary built by
`InjuryRiskDetector.get_session_summary`.  Alerts are identified by their
`type` value and recommendations by their `title` value; `risk_counters` and
`percentages` are `none` when the corresponding keys are absent from the
returned dictionary (the empty-session branch, lines 130-136). -/
structure Summary where
  total_frames : ℕ
  overall_risk : String
  alerts : List String
  recommendations : List String
  risk_counters : Option (ℕ × ℕ × ℕ × ℕ)
  percentages : Option (ℚ × ℚ × ℚ × ℚ)
deriving DecidableEq

/-- Embedding of `InjuryRiskDetector.get_session_summary` (`injury_risk.py`
lines 122-264).  The counters tuple is ordered (shoulder_overuse,
poor_kinetic_chain, knee_stress, elbow_strain), matching the percentage
computations. -/
def get_session_summary (st : DetectorState) : Summary :=
  if st.total_frames = 0 then
    { total_frames := 0, overall_risk := "unknown", alerts := [],
      recommendations := [], risk_counters := none, percentages := none }
  else
    let n : ℚ := st.total_frames
    let shoulder_pct := (st.shoulder_overuse : ℚ) / n * 100
    let kinetic_chain_pct := (st.poor_kinetic_chain : ℚ) / n * 100
    let knee_pct := (st.knee_stress : ℚ) / n * 100
    let elbow_pct := (st.elbow_strain : ℚ) / n * 100
    let alerts :=
      (if shoulder_pct > 10 then ["shoulder_overuse"] else []) ++
      (if kinetic_chain_pct > 20 then ["technique"] else []) ++
      (if knee_pct > 15 then ["knee_stress"] else [])
    let recommendations :=
      (if shoulder_pct > 10 then ["Reduce Shoulder Strain"] else []) ++
      (if kinetic_chain_pct > 20 then ["Improve Power Generation"] else []) ++
      (if knee_pct > 15 then ["Protect Your Knees"] else []) ++
      (if elbow_pct > 15 then ["Elbow Positioning"] else [])
    let overall_risk :=
      if alerts.length ≥ 2 then "high"
      else if alerts.length = 1 then "medium"
      else "low"
    let recommendations :=
      if overall_risk = "low" then recommendations ++ ["Excellent Biomechanics"]
      else recommendations
    { total_frames := st.total_frames, overall_risk := overall_risk,
      alerts := alerts, recommendations := recommendations,
      risk_counters := some (st.shoulder_overuse, st.poor_kinetic_chain,
        st.knee_stress, st.elbow_strain),
      percentages := some (round1 shoulder_pct, round1 kinetic_chain_pct,
        round1 knee_pct, round1 elbow_pct) }

/-- Per-session counter bounds: each of the three single-increment counters is
bounded by the number of frames, and `elbow_strain` (which can be incremented
twice in one frame) by twice the number of frames. -/
def CounterBounds (st : DetectorState) : Prop :=
  st.shoulder_overuse ≤ st.total_frames ∧
  st.poor_kinetic_chain ≤ st.total_frames ∧
  st.knee_stress ≤ st.total_frames ∧
  st.elbow_strain ≤ 2 * st.total_frames

end InjuryRisk

namespace Classify

/-- The per-frame metrics dictionary fields read by the heuristics in
`heuristics.py`, modelled as a record: each field carries the value the
corresponding `metrics.get(key, default)` call returns, so an input dictionary
with missing keys corresponds to a record holding the defaults.  The structure
defaults below are the most common `dict.get` defaults in the source
(`is_overhead` reads `right_wrist_y` with default `1.0` and `compute_velocity`
defaults a missing previous value to the current one; a record models the
all-keys-present case, which is what `track.py` produces). -/
structure Metrics where
  frame_idx : ℤ := 0
  right_wrist_y : ℚ := 1/2
  nose_y : ℚ := 1/2
  right_shoulder_abduction : ℚ := 0
  right_hip_y : ℚ := 1/2
  hip_rotation_deg : ℚ := 0
  right_knee_flexion : ℚ := 180
  right_shoulder_x : ℚ := 1/2
  left_shoulder_x : ℚ := 1/2
deriving DecidableEq

/-- Embedding of `compute_velocity(current, history, 'right_wrist_y')` with no x key
(`heuristics.py` lines 60-83), the form used by every caller in the
classification path: `history[-1]` is the previous frame, `vel_x = 0`, and the
magnitude `sqrt(vel_y**2)` is `|vel_y|`. -/
def compute_velocity (current : Metrics) (history : List Metrics) : ℚ × ℚ × ℚ :=
  match history.getLast? with
  | none => (0, 0, 0)
  | some prev =>
    let vel_y := current.right_wrist_y - prev.right_wrist_y
    (vel_y, 0, |vel_y|)

/-- Helper for `count_upward_frames`: walk the reversed history counting
strictly-upward (decreasing y) steps until the first non-upward one. -/
def countUpAux : List Metrics → ℕ
  | a :: b :: rest =>
    if a.right_wrist_y < b.right_wrist_y then countUpAux (b :: rest) + 1 else 0
  | _ => 0

/-- Embedding of `count_upward_frames(history)` (`heuristics.py` lines 86-99): consecutive
frames with upward wrist motion at the end of the history. -/
def count_upward_frames (history : List Metrics) : ℕ :=
  if history.length < 2 then 0 else countUpAux history.reverse

/-- The `recent_had_serve_velocity` scan inside `is_serve` (`heuristics.py`
lines 174-185): any of the last five adjacent pairs of the history with wrist
speed at least 0.015. -/
def recentHadServeVelocity (history : List Metrics) : Bool :=
  if history.length < 2 then false
  else
    let pairs := history.zip history.tail
    (pairs.drop (pairs.length - 5)).any fun pq =>
      decide (|pq.2.right_wrist_y - pq.1.right_wrist_y| ≥ 3/200)

/-- Embedding of `is_overhead` (`heuristics.py` lines 106-131). -/
def is_overhead (m : Metrics) : Bool × ℚ :=
  let wrist_above_head := m.nose_y - m.right_wrist_y ≥ 1/20
  let high_shoulder := m.right_shoulder_abduction ≥ 110
  if wrist_above_head ∧ high_shoulder then
    (true, if m.right_shoulder_abduction ≥ 130 then 19/20 else 17/20)
  else (false, 0)

/-- Embedding of `is_serve` (`heuristics.py` lines 134-217): multi-signal point score with
double-weighted upward motion and strong velocity, plus the sticky
follow-through boost. -/
def is_serve (m : Metrics) (history : List Metrics) : Bool × ℚ :=
  let wrist_height_diff := m.right_hip_y - m.right_wrist_y
  let wrist_at_waist := wrist_height_diff ≤ 1/5
  let wrist_during_followthrough := m.right_wrist_y < m.right_hip_y
  let shoulder_in_range :=
    20 ≤ m.right_shoulder_abduction ∧ m.right_shoulder_abduction ≤ 100
  let has_hip_rotation := |m.hip_rotation_deg| ≥ 3
  let v := compute_velocity m history
  let is_moving_up := v.1 < -(1/200)
  let has_velocity := v.2.2 ≥ 1/125
  let has_strong_velocity := v.2.2 ≥ 1/50
  let recent_had := recentHadServeVelocity history
  let sustained_upward := count_upward_frames (history ++ [m]) ≥ 2
  let score : ℕ :=
    (if wrist_at_waist then 1 else 0) +
    (if shoulder_in_range then 1 else 0) +
    (if has_hip_rotation then 1 else 0) +
    (if is_moving_up then 2 else 0) +
    (if has_velocity then 1 else 0) +
    (if sustained_upward then 1 else 0) +
    (if has_strong_velocity then 2 else 0) +
    (if recent_had ∧ wrist_during_followthrough ∧ shoulder_in_range then 2 else 0)
  if score ≥ 3 then (true, min (11/20 + ((score - 3 : ℕ) : ℚ) * (3/50)) (19/20))
  else (false, 0)

/-- Embedding of `is_groundstroke` (`heuristics.py` lines 220-258). -/
def is_groundstroke (m : Metrics) : Bool × ℚ × String :=
  if ¬ (45 ≤ m.right_shoulder_abduction ∧ m.right_shoulder_abduction ≤ 110) then
    (false, 0, "")
  else
    let has_hip_rotation := |m.hip_rotation_deg| ≥ 10
    let is_forehand := m.right_shoulder_x > m.left_shoulder_x
    let confidence : ℚ := 3/4 + (if has_hip_rotation then 1/10 else 0)
    let sub_type :=
      (if is_forehand then "forehand" else "backhand") ++
      (if m.right_shoulder_abduction ≥ 70 then "_drive" else "_control")
    (true, min confidence (19/20), sub_type)

/-- Embedding of `is_volley` (`heuristics.py` lines 261-299); `position_data` is the
optional `at_kitchen_line` flag. -/
def is_volley (m : Metrics) (history : List Metrics) (position_data : Option Bool) :
    Bool × ℚ × String :=
  if ¬ (30 ≤ m.right_shoulder_abduction ∧ m.right_shoulder_abduction ≤ 85) then
    (false, 0, "")
  else
    let v := compute_velocity m history
    let is_compact := v.2.2 ≤ 3/200
    if ¬ is_compact ∧ history ≠ [] then (false, 0, "")
    else
      let base : ℚ × String :=
        if m.right_shoulder_abduction ≥ 55 then (17/20, "punch") else (4/5, "block")
      let confidence :=
        base.1 + (if position_data = some true then 1/20 else 0)
      (true, min confidence (19/20), base.2)

/-- Embedding of `is_dink` (`heuristics.py` lines 302-347). -/
def is_dink (m : Metrics) (history : List Metrics) : Bool × ℚ × String :=
  let low_shoulder := m.right_shoulder_abduction ≤ 55
  let v := compute_velocity m history
  let soft_touch := v.2.2 ≤ 3/250
  let low_body := 15 ≤ m.right_knee_flexion ∧ m.right_knee_flexion ≤ 70
  let wrist_below_waist := m.right_wrist_y ≥ m.right_hip_y
  let score : ℕ :=
    (if low_shoulder then 1 else 0) +
    (if soft_touch then 2 else 0) +
    (if low_body then 1 else 0) +
    (if wrist_below_waist then 1 else 0)
  if score ≥ 3 then
    (true, min (7/10 + ((score - 3 : ℕ) : ℚ) * (2/25)) (19/20), "soft_game")
  else (false, 0, "")

/-- Embedding of `classify_stroke_enhanced` (`heuristics.py` lines 354-418): the
priority-ordered dispatch with the `target_type` gating. -/
def classify_stroke_enhanced (m : Metrics) (frame_history : List Metrics)
    (position_data : Option Bool) (target_type : Option String) :
    String × ℚ × String :=
  let oh := is_overhead m
  if oh.1 ∧ oh.2 ≥ 4/5 then ("overhead", oh.2, "smash")
  else
    let srv := is_serve m frame_history
    if target_type = some "serve" then
      if srv.1 ∧ srv.2 ≥ 3/4 then ("serve", max srv.2 (17/20), "underhand")
      else ("unknown", 2/5, "unclassified")
    else
      if srv.1 ∧ srv.2 ≥ 3/4 then ("serve", srv.2, "underhand")
      else
        let dnk := is_dink m frame_history
        let dinkHit :=
          if target_type = some "dink" then dnk.1 ∧ dnk.2.1 ≥ 7/10
          else dnk.1 ∧ dnk.2.1 ≥ 3/4
        if dinkHit then
          if target_type = some "dink" then ("dink", max dnk.2.1 (4/5), dnk.2.2)
          else ("dink", dnk.2.1, dnk.2.2)
        else
          let vol := is_volley m frame_history position_data
          if vol.1 ∧ vol.2.1 ≥ 3/4 then ("volley", vol.2.1, vol.2.2)
          else
            let gs := is_groundstroke m
            if gs.1 then
              if target_type = some "groundstroke" ∨ target_type = some "drive" then
                ("groundstroke", max gs.2.1 (4/5), gs.2.2)
              else ("groundstroke", gs.2.1, gs.2.2)
            else ("unknown", 2/5, "unclassified")

/-- The Python `history[-10:]` truncation in `StrokeClassifier.detect_segments`
(`classifier.py` lines 67-69). -/
def truncate10 (history : List Metrics) : List Metrics :=
  if history.length > 10 then history.drop (history.length - 10) else history

/-- One per-frame classification event of the stream fed to the run-length
encoder: literal frame index, stroke type and confidence. -/
structure Ev where
  idx : ℤ
  ty : String
  conf : ℚ
deriving DecidableEq

/-- The per-frame classification stream of `detect_segments`
(`classifier.py` lines 61-69): classify each frame against the bounded history
of the previous frames, then push the frame into the history.  The Python
loop interleaves this with the run-length encoding below; the two parts are
composed here because the history state never depends on the segment state. -/
def classifyStream (target_type : Option String) :
    List Metrics → List Metrics → List Ev
  | _, [] => []
  | history, m :: rest =>
    let r := classify_stroke_enhanced m history none target_type
    { idx := m.frame_idx, ty := r.1, conf := r.2.1 } ::
      classifyStream target_type (truncate10 (history ++ [m])) rest

/-- A stroke segment dictionary as built by `detect_segments`. -/
structure Seg where
  start_frame : ℤ
  end_frame : ℤ
  stroke_type : String
  confidence : ℚ
deriving DecidableEq

/-- The Python `round(x, 3)` (round-half-up on `ℚ`; Python's half-to-even rule
differs only at exact ties, which do not arise in any stated result). -/
def round3 (x : ℚ) : ℚ := (round (x * 1000) : ℚ) / 1000

/-- The run-length encoding loop of `detect_segments` (`classifier.py` lines
71-106).  The accumulator is `(current_type, start_frame, conf_max,
conf_count)` when a run is open, and the previous frame's literal index; a
segment is emitted when the type changes and once more at the end. -/
def rleAux : Option (String × ℤ × ℚ × ℕ) → ℤ → List Ev → List Seg
  | none, _, [] => []
  | some (ty, st, cm, cc), prevIdx, [] =>
    [{ start_frame := st, end_frame := prevIdx, stroke_type := ty,
       confidence := round3 (if cc > 0 then cm else 0) }]
  | none, _, e :: rest => rleAux (some (e.ty, e.idx, e.conf, 1)) e.idx rest
  | some (ty, st, cm, cc), prevIdx, e :: rest =>
    if e.ty = ty then rleAux (some (ty, st, max cm e.conf, cc + 1)) e.idx rest
    else
      { start_frame := st, end_frame := prevIdx, stroke_type := ty,
        confidence := round3 (if cc > 0 then cm else 0) } ::
        rleAux (some (e.ty, e.idx, e.conf, 1)) e.idx rest

/-- The short-segment / unknown filter of `detect_segments` (`classifier.py`
lines 108-115).  (`stroke_type is not None` always holds here because
`classify_stroke_enhanced` returns a string.) -/
def filterShort (segs : List Seg) : List Seg :=
  segs.filter fun s =>
    decide (s.stroke_type ≠ "unknown" ∧ s.end_frame - s.start_frame + 1 ≥ 3)

/-- One step of the gap-merge pass of `detect_segments` (`classifier.py` lines
117-128), on the reversed accumulator (head = Python `merged[-1]`). -/
def mergeStep (acc : List Seg) (seg : Seg) : List Seg :=
  match acc with
  | last :: rest =>
    if last.stroke_type = seg.stroke_type ∧
        seg.start_frame - last.end_frame - 1 ≤ 3 then
      { last with end_frame := seg.end_frame,
                  confidence := max last.confidence seg.confidence } :: rest
    else seg :: last :: rest
  | [] => [seg]

/-- The gap-merge pass of `detect_segments`. -/
def mergePass (segs : List Seg) : List Seg :=
  (segs.foldl mergeStep []).reverse

/-- Embedding of `StrokeClassifier.detect_segments` (`classifier.py` lines 44-128):
classification stream → run-length encoding → short/unknown filter →
gap-merge. -/
def detect_segments (frames : List Metrics) (target_type : Option String) :
    List Seg :=
  mergePass (filterShort (rleAux none 0 (classifyStream target_type [] frames)))

/-- Specification-side grouping of the classification stream into maximal
consecutive same-type runs (`cur` is the currently open run, in order). -/
def runsAux : List Ev → List Ev → List (List Ev)
  | cur, [] => if cur.isEmpty then [] else [cur]
  | [], e :: rest => runsAux [e] rest
  | c :: cs, e :: rest =>
    if e.ty = c.ty then runsAux ((c :: cs) ++ [e]) rest
    else (c :: cs) :: runsAux [e] rest

/-- Maximum per-frame confidence of a (nonempty) run, exactly the fold the
source accumulates in `conf_max`. -/
def runMaxConf : List Ev → ℚ
  | [] => 0
  | r :: rs => rs.foldl (fun m e => max m e.conf) r.conf

/-- The segment a maximal run denotes: literal start and end frame indices of
the run, its type, and the rounded maximum per-frame confidence. -/
def segOfRun (run : List Ev) : Seg :=
  { start_frame := ((run.head?).map Ev.idx).getD 0,
    end_frame := ((run.getLast?).map Ev.idx).getD 0,
    stroke_type := ((run.head?).map Ev.ty).getD "",
    confidence := round3 (runMaxConf run) }

/-- Adjacency condition guaranteed between consecutive segments of a merged
list: the merge condition (same type and gap at most 3) fails. -/
def goodAdj (p q : Seg) : Prop :=
  ¬ (p.stroke_type = q.stroke_type ∧ q.start_frame - p.end_frame - 1 ≤ 3)

/-- Strictly increasing frame indices. -/
def IdxLt (a b : Ev) : Prop := a.idx < b.idx

/-- Minimum-length property of `detect_segments` output segments. -/
def Len3 (s : Seg) : Prop := s.end_frame - s.start_frame + 1 ≥ 3

/-- A frame of the serve scenario: wrist at height `y`, every other metric at
its default (hip-y 0.5, shoulder abduction 0, nose-y 0.5, ...). -/
def serveFrame (y : ℚ) (i : ℤ) : Metrics := { frame_idx := i, right_wrist_y := y }

end Classify

namespace Pipeline

/-- Per-stroke acceptance configuration (`track.py` lines 1021-1030,
`cfg_by_type`): minimum confidence, minimum peak velocity, minimum segment
length in frames, and the cooldown translated to frames. -/
structure GateCfg where
  min_conf : ℚ
  min_peak_v : ℚ
  min_len_frames : ℤ
  cooldown_frames : ℤ
deriving DecidableEq

/-- A detected stroke entering the per-stroke gate (`track.py` lines
1043-1066). -/
structure Stroke where
  start_frame : ℤ
  end_frame : ℤ
  stroke_type : String
  confidence : ℚ
  peak_velocity : ℚ
deriving DecidableEq

/-- One iteration of the per-stroke gate loop with cooldown (`track.py` lines
1043-1066): skip when too short, too weak, too slow, or inside the cooldown
window of the previously accepted stroke; otherwise append. -/
def gateStep (cfg : GateCfg) (acc : List Stroke) (s : Stroke) : List Stroke :=
  if s.end_frame - s.start_frame + 1 < cfg.min_len_frames then acc
  else if s.confidence < cfg.min_conf then acc
  else if s.peak_velocity < cfg.min_peak_v then acc
  else if cfg.cooldown_frames > 0 ∧ acc ≠ [] ∧
      s.start_frame ≤ (((acc.getLast?).map Stroke.end_frame).getD 0) +
        cfg.cooldown_frames then acc
  else acc ++ [s]

/-- The per-stroke gate and cooldown filter (`track.py` lines 1041-1068),
applied to the strokes sorted by start frame. -/
def gateFilter (cfg : GateCfg) (strokes : List Stroke) : List Stroke :=
  (strokes.mergeSort (fun a b => a.start_frame ≤ b.start_frame)).foldl
    (gateStep cfg) []

/-- A per-frame result entry of the `results` list as read by the single-ID
validation (`track.py` lines 1082-1087): literal frame index and track id. -/
structure FrameResult where
  frame_idx : ℤ
  track_id : ℤ
deriving DecidableEq

/-- A stroke dictionary at the validation stage; `multi_id_warning` models
the presence of the flag key (absent = `false`). -/
structure VStroke where
  start_frame : ℤ
  end_frame : ℤ
  stroke_type : String
  track_id : ℤ := -1
  multi_id_warning : Bool := false
deriving DecidableEq

/-- The track ids (`!= -1`) of the frames inside a stroke window, in order of
appearance (`track.py` lines 1081-1087 collect them into a set; the count
dictionary of lines 1103-1109 is keyed in first-occurrence order). -/
def windowTids (results : List FrameResult) (sf ef : ℤ) : List ℤ :=
  ((results.filter fun r =>
      decide (sf ≤ r.frame_idx ∧ r.frame_idx ≤ ef ∧ r.track_id ≠ -1)).map
    FrameResult.track_id)

/-- Build the occurrence-count association list in first-occurrence order,
as a Python dict built by `id_counts[tid] = id_counts.get(tid, 0) + 1` is. -/
def countsAux (acc : List (ℤ × ℕ)) (tid : ℤ) : List (ℤ × ℕ) :=
  if acc.any (fun p => p.1 == tid) then
    acc.map fun p => if p.1 == tid then (p.1, p.2 + 1) else p
  else acc ++ [(tid, 1)]

/-- The `id_counts` dictionary for a stroke window. -/
def idCounts (results : List FrameResult) (sf ef : ℤ) : List (ℤ × ℕ) :=
  (windowTids results sf ef).foldl countsAux []

/-- Embedding of `max(id_counts.keys(), key=lambda k: id_counts[k])` (`track.py` line
1112): iterate the keys in order, keeping the first strictly-greatest count. -/
def dominantId (counts : List (ℤ × ℕ)) : Option (ℤ × ℕ) :=
  counts.foldl
    (fun best p =>
      match best with
      | none => some p
      | some b => if p.2 > b.2 then some p else best)
    none

/-- The single-ID invariant validation of one stroke (`track.py` lines
1076-1116): zero ids → fall back to the locked id (Python truthiness sends a
`0` or `None` lock to `-1`); exactly one id → adopt it; several ids → adopt
the dominant id and set the `multi_id_warning` flag.  The `if id_counts:`
guard of line 1111 is modelled by the `none` case of `dominantId`, which
never fires on a nonempty count list. -/
def validateStroke (results : List FrameResult) (target : Option ℤ)
    (s : VStroke) : Option VStroke :=
  let counts := idCounts results s.start_frame s.end_frame
  match counts with
  | [] =>
    some { s with track_id :=
      match target with
      | some t => if t ≠ 0 then t else -1
      | none => -1 }
  | [(tid, _)] => some { s with track_id := tid }
  | _ =>
    match dominantId counts with
    | some d => some { s with track_id := d.1, multi_id_warning := true }
    | none => none

/-- The validation pass over all detected strokes (`track.py` lines
1075-1118). -/
def validateStrokes (results : List FrameResult) (target : Option ℤ)
    (strokes : List VStroke) : List VStroke :=
  strokes.filterMap (validateStroke results target)

end Pipeline

namespace Tracker

/-- One tracker output row (`track.py`: `x1, y1, x2, y2, tid, conf, cls`).
`cropScore` carries the ROI score of the OPTION-1 selection block (lines
503-539: `iou * 0.4 + coverage * 1.0 + dist_score * 0.6`, multiplied by `0.1`
when the candidate center is outside the crop box); the score is carried as
an input because its center-distance term contains a real square root, and it
only influences which candidate the initial selection picks. -/
structure TrackBox where
  x1 : ℚ
  y1 : ℚ
  x2 : ℚ
  y2 : ℚ
  tid : ℤ
  conf : ℚ
  cropScore : ℚ := 0
deriving DecidableEq

/-- One raw YOLO detection row (`x1, y1, x2, y2, conf, cls`). -/
structure Det where
  x1 : ℚ
  y1 : ℚ
  x2 : ℚ
  y2 : ℚ
  conf : ℚ
deriving DecidableEq

/-- Run configuration: frame size, optional crop-region hint and click-point
hint (both normalized), and `lock_wait_timeout = 90` (`track.py` line 341). -/
structure Config where
  width : ℚ
  height : ℚ
  crop_region_norm : Option (ℚ × ℚ × ℚ × ℚ) := none
  target_point_norm : Option (ℚ × ℚ) := none
  lock_wait_timeout : ℕ := 90
deriving DecidableEq

/-- Per-frame input to the target-selection logic: the frame counter `i`, the
tracker outputs and the raw detections. -/
structure FrameInput where
  i : ℕ
  tracks : List TrackBox
  detections : List Det
deriving DecidableEq

/-- The cross-frame tracker state (`track.py` lines 342-355): the locked
identifier, the loss counter and the last known box center. -/
structure TrackState where
  target_track_id : Option ℤ
  lost_frames : ℕ
  prev_bbox_center : Option (ℚ × ℚ)
deriving DecidableEq

/-- Initial state: `target_track_id = None`, `lost_frames = 0`, `prev_bbox_center = None`. -/
def initTrackState : TrackState :=
  { target_track_id := none, lost_frames := 0, prev_bbox_center := none }

/-- First match of the locked id among the tracks (the sticky-lock scans of
`track.py` lines 472-479, 652-660 and 663-670, which are identical). -/
def findTrack (tracks : List TrackBox) (tid : ℤ) : Option TrackBox :=
  tracks.find? fun t => t.tid == tid

/-- The OPTION-1 argmax over crop scores (`track.py` lines 500-539): first
strictly-gregreater score wins, starting from `best_score = 0`. -/
def argmaxCropScore (tracks : List TrackBox) : Option ℤ × ℚ :=
  tracks.foldl
    (fun best t => if t.cropScore > best.2 then (some t.tid, t.cropScore) else best)
    (none, 0)

/-- The OPTION-3 largest-area near-court fallback (`track.py` lines 604-623;
the block appears twice verbatim, guarded by `selected_id == -1`, so the
second copy never changes the result): area above 30000 px and bottom edge in
the lower 35 percent of the frame. -/
def selectLargestArea (cfg : Config) (tracks : List TrackBox) : Option ℤ :=
  (tracks.foldl
    (fun (best : Option ℤ × ℚ) t =>
      let area := (t.x2 - t.x1) * (t.y2 - t.y1)
      if area > 30000 ∧ t.y2 > (13/20) * cfg.height ∧ area > best.2 then
        (some t.tid, area)
      else best)
    (none, 0)).1

/-- The OPTION-2 click-point selection (`track.py` lines 583-602): among the
boxes containing the point, the one with the center nearest to the point
(the `sqrt` distance comparison is replaced by the equivalent comparison of
squared distances). -/
def selectByPoint (tx ty : ℚ) (tracks : List TrackBox) :
    Option ℤ :=
  (tracks.foldl
    (fun (best : Option (ℤ × ℚ)) t =>
      if t.x1 ≤ tx ∧ tx ≤ t.x2 ∧ t.y1 ≤ ty ∧ ty ≤ t.y2 then
        let cx := (t.x1 + t.x2) / 2
        let cy := (t.y1 + t.y2) / 2
        let d2 := (cx - tx) ^ 2 + (cy - ty) ^ 2
        match best with
        | none => some (t.tid, d2)
        | some b => if d2 < b.2 then some (t.tid, d2) else best
      else best)
    none).map Prod.fst

/-- Outcome of the first-time selection block (`track.py` lines 481-650). -/
inductive SelResult where
  | skipFrame
  | picked (id : Option ℤ)
deriving DecidableEq

/-- The first-time selection (`track.py` lines 481-650): crop-region scoring
with relaxed threshold `0.3`, forced fallback after half the lock-wait
window, a `continue` while patiently waiting, then point-based selection,
then the largest-area fallback. -/
def firstTimeSelection (cfg : Config) (inp : FrameInput) : SelResult :=
  match cfg.crop_region_norm with
  | some _ =>
    let best := argmaxCropScore inp.tracks
    match best.1 with
    | some bid =>
      if best.2 > 3/10 then .picked (some bid)
      else if inp.i > cfg.lock_wait_timeout / 2 then .picked (some bid)
      else if inp.i < cfg.lock_wait_timeout then .skipFrame
      else .picked (selectLargestArea cfg inp.tracks)
    | none =>
      if inp.i < cfg.lock_wait_timeout then .skipFrame
      else .picked (selectLargestArea cfg inp.tracks)
  | none =>
    match cfg.target_point_norm with
    | some (px, py) =>
      match selectByPoint (px * cfg.width) (py * cfg.height) inp.tracks with
      | some id => .picked (some id)
      | none => .picked (selectLargestArea cfg inp.tracks)
    | none => .picked (selectLargestArea cfg inp.tracks)

/-- The raw-detection fallback (`track.py` lines 672-706): the detection
nearest to the last known center, within 40 px (squared distances), and
inside the crop region when one is configured.  It only supplies a box — the
locked identifier is unchanged. -/
def fallbackDet (cfg : Config) (prevC : Option (ℚ × ℚ)) (dets : List Det) :
    Option Det :=
  (dets.foldl
    (fun (best : Option (Det × ℚ)) d =>
      let cx := (d.x1 + d.x2) / 2
      let cy := (d.y1 + d.y2) / 2
      let inCrop : Bool :=
        match cfg.crop_region_norm with
        | some (rx1, ry1, rx2, ry2) =>
          decide (rx1 * cfg.width ≤ cx ∧ cx ≤ rx2 * cfg.width ∧
            ry1 * cfg.height ≤ cy ∧ cy ≤ ry2 * cfg.height)
        | none => true
      if inCrop then
        match prevC with
        | some (px, py) =>
          let d2 := (cx - px) ^ 2 + (cy - py) ^ 2
          if d2 < 1600 then
            match best with
            | none => some (d, d2)
            | some b => if d2 < b.2 then some (d, d2) else best
          else best
        | none => best
      else best)
    none).map Prod.fst

/-- The edge re-entry re-lock scan (`track.py` lines 724-757): nearest track
center within 80 px, or 150 px when the last known center is within 150 px of
a frame edge (squared distances). -/
def relockScan (cfg : Config) (px py : ℚ) (tracks : List TrackBox) :
    Option ℤ :=
  let margin : ℚ := 150
  let isNearEdge :=
    px < margin ∨ px > cfg.width - margin ∨ py < margin ∨ py > cfg.height - margin
  let maxRelockDist : ℚ := if isNearEdge then 150 else 80
  (tracks.foldl
    (fun (best : Option (ℤ × ℚ)) t =>
      let cx := (t.x1 + t.x2) / 2
      let cy := (t.y1 + t.y2) / 2
      let d2 := (cx - px) ^ 2 + (cy - py) ^ 2
      let isCloser : Bool :=
        match best with
        | none => true
        | some b => decide (d2 < b.2)
      if d2 < maxRelockDist ^ 2 ∧ isCloser then
        some (t.tid, d2)
      else best)
    none).map Prod.fst

/-- Center of a track box. -/
def boxCenter (t : TrackBox) : ℚ × ℚ := ((t.x1 + t.x2) / 2, (t.y1 + t.y2) / 2)

/-- The not-found update (`track.py` lines 715-768): increment the loss
counter; after more than 300 lost frames reset the counter only — the
identifier is kept; then attempt the edge re-entry re-lock, which adopts the
new identifier and its box when it fires. -/
def notFoundUpdate (cfg : Config) (s : TrackState) (inp : FrameInput) :
    TrackState :=
  let lost := s.lost_frames + 1
  let lost := if lost > 300 ∧ s.target_track_id.isSome then 0 else lost
  let s := { s with lost_frames := lost }
  match s.target_track_id, s.prev_bbox_center with
  | some _, some (px, py) =>
    match relockScan cfg px py inp.tracks with
    | some newId =>
      match findTrack inp.tracks newId with
      | some t =>
        { s with target_track_id := some newId,
                 prev_bbox_center := some (boxCenter t) }
      | none => { s with target_track_id := some newId }
    | none => s
  | _, _ => s

/-- One frame of the target-selection state machine (`track.py` lines
464-793).  Everything is guarded by `len(tracks) > 0`; a locked identifier
present among the tracks is adopted directly (sticky lock); otherwise the
raw-detection fallback, the loss counter/timeout update and the re-lock scan
run; an unlocked state runs the first-time selection (whose `continue` path
leaves the frame entirely). -/
def stepFrame (cfg : Config) (s : TrackState) (inp : FrameInput) : TrackState :=
  if inp.tracks.isEmpty then s
  else
    match s.target_track_id with
    | some id =>
      match findTrack inp.tracks id with
      | some t =>
        { s with lost_frames := 0, prev_bbox_center := some (boxCenter t) }
      | none =>
        match fallbackDet cfg s.prev_bbox_center inp.detections with
        | some d =>
          { s with lost_frames := 0,
                   prev_bbox_center := some ((d.x1 + d.x2) / 2, (d.y1 + d.y2) / 2) }
        | none => notFoundUpdate cfg s inp
    | none =>
      match firstTimeSelection cfg inp with
      | .skipFrame => s
      | .picked sel =>
        let s2 := { s with target_track_id := sel }
        match sel with
        | some newId =>
          match findTrack inp.tracks newId with
          | some t =>
            { s2 with lost_frames := 0, prev_bbox_center := some (boxCenter t) }
          | none => notFoundUpdate cfg s2 inp
        | none => notFoundUpdate cfg s2 inp

/-- The re-acquisition (recovery) event: the locked identifier is missing
from the frame, the raw-detection fallback fails, and the re-lock scan around
the last known center finds a candidate. -/
def recoveryFires (cfg : Config) (s : TrackState) (inp : FrameInput) : Prop :=
  inp.tracks ≠ [] ∧
  (∃ id, s.target_track_id = some id ∧ findTrack inp.tracks id = none) ∧
  fallbackDet cfg s.prev_bbox_center inp.detections = none ∧
  (∃ px py, s.prev_bbox_center = some (px, py) ∧
    relockScan cfg px py inp.tracks ≠ none)

end Tracker

namespace Angles

/-- For any cosine value, the degree conversion of its arccos is nonnegative. -/
lemma arccos_deg_nonneg (x : ℝ) : 0 ≤ Real.arccos x * (180 / Real.pi) :=
  mul_nonneg (Real.arccos_nonneg _) (by positivity)

/-- For any cosine value, the degree conversion of its arccos is at most 180. -/
lemma arccos_deg_le_180 (x : ℝ) : Real.arccos x * (180 / Real.pi) ≤ 180 := by
  have hpi : (0:ℝ) < Real.pi := Real.pi_pos
  calc Real.arccos x * (180 / Real.pi)
      ≤ Real.pi * (180 / Real.pi) := by
        apply mul_le_mul_of_nonneg_right (Real.arccos_le_pi x); positivity
    _ = 180 := by field_simp

/-- The returned angle is always nonnegative. -/
lemma calculate_angle_nonneg (a b c : Option Landmark) :
    0 ≤ calculate_angle a b c := by
  match a, b, c with
  | none, _, _ => simp [calculate_angle]
  | some _, none, _ => simp [calculate_angle]
  | some _, some _, none => simp [calculate_angle]
  | some a, some b, some c => exact arccos_deg_nonneg _

/-- The returned angle is at most 180 degrees. -/
lemma calculate_angle_le_180 (a b c : Option Landmark) :
    calculate_angle a b c ≤ 180 := by
  match a, b, c with
  | none, _, _ => simp [calculate_angle]
  | some _, none, _ => simp [calculate_angle]
  | some _, some _, none => simp [calculate_angle]
  | some a, some b, some c => exact arccos_deg_le_180 _

/-- Because of the `1e-6` term added to the product of the norms, the clipped
cosine is always strictly greater than `-1`, hence the angle is always
strictly below 180 degrees (Cauchy-Schwarz gives `dot ≥ -‖ba‖‖bc‖`). -/
lemma calculate_angle_lt_180 (a b c : Option Landmark) :
    calculate_angle a b c < 180 := by
  match a, b, c with
  | none, _, _ => simp [calculate_angle]
  | some _, none, _ => simp [calculate_angle]
  | some _, some _, none => simp [calculate_angle]
  | some a, some b, some c =>
    show Real.arccos (max (-1) (min 1 _)) * (180 / Real.pi) < 180
    have hpi : (0:ℝ) < Real.pi := Real.pi_pos
    set ba1 := a.x - b.x
    set ba2 := a.y - b.y
    set ba3 := a.z - b.z
    set bc1 := c.x - b.x
    set bc2 := c.y - b.y
    set bc3 := c.z - b.z
    set dot := ba1 * bc1 + ba2 * bc2 + ba3 * bc3 with hdot
    set sa := ba1 ^ 2 + ba2 ^ 2 + ba3 ^ 2 with hsa
    set sc := bc1 ^ 2 + bc2 ^ 2 + bc3 ^ 2 with hsc
    have hsa0 : (0:ℝ) ≤ sa := by positivity
    have hsc0 : (0:ℝ) ≤ sc := by positivity
    set na := Real.sqrt sa with hna
    set nc := Real.sqrt sc with hnc
    have hna0 : 0 ≤ na := Real.sqrt_nonneg _
    have hnc0 : 0 ≤ nc := Real.sqrt_nonneg _
    -- Cauchy-Schwarz for triples, via the Lagrange identity
    have hcs : dot ^ 2 ≤ sa * sc := by
      have hlag : sa * sc - dot ^ 2 =
          (ba1 * bc2 - ba2 * bc1) ^ 2 + (ba1 * bc3 - ba3 * bc1) ^ 2 +
            (ba2 * bc3 - ba3 * bc2) ^ 2 := by ring
      nlinarith [sq_nonneg (ba1 * bc2 - ba2 * bc1), sq_nonneg (ba1 * bc3 - ba3 * bc1),
        sq_nonneg (ba2 * bc3 - ba3 * bc2)]
    have hprod : na * nc = Real.sqrt (sa * sc) := (Real.sqrt_mul hsa0 _).symm
    have habs : |dot| ≤ na * nc := by
      rw [hprod]
      have := Real.sqrt_le_sqrt hcs
      rwa [Real.sqrt_sq_eq_abs] at this
    have hlow : -(na * nc) ≤ dot := (abs_le.mp habs).1
    have hden : (0:ℝ) < na * nc + 1 / 1000000 := by positivity
    have hcos : -1 < dot / (na * nc + 1 / 1000000) := by
      rw [lt_div_iff₀ hden]
      nlinarith
    have hclip : -1 < max (-1) (min 1 (dot / (na * nc + 1 / 1000000))) := by
      rcases le_or_lt 1 (dot / (na * nc + 1 / 1000000)) with h | h
      · have : min 1 (dot / (na * nc + 1 / 1000000)) = 1 := min_eq_left h
        rw [this]; norm_num [max_eq_right]
      · have : (-1:ℝ) < min 1 (dot / (na * nc + 1 / 1000000)) := by
          apply lt_min (by norm_num) hcos
        exact lt_of_lt_of_le this (le_max_right _ _)
    have harc : Real.arccos (max (-1) (min 1 (dot / (na * nc + 1 / 1000000)))) < Real.pi := by
      rcases lt_or_eq_of_le (Real.arccos_le_pi _) with h | h
      · exact h
      · exfalso
        have := Real.arccos_eq_pi.mp h
        linarith
    calc Real.arccos (max (-1) (min 1 (dot / (na * nc + 1 / 1000000)))) * (180 / Real.pi)
        < Real.pi * (180 / Real.pi) := by
          apply mul_lt_mul_of_pos_right harc; positivity
      _ = 180 := by field_simp

/-- C2 (amended): `calculate_angle` always returns a value in `[0, 180)` —
in particular at most 180 — and returns `0.0` whenever any input point is
absent; it is a total function (never raises).  For colinear points with `b`
between `a` and `c` the value is strictly below 180 (not exactly 180.0),
because the `1e-6` term added to the denominator keeps the clipped cosine
strictly above `-1`. -/
theorem C2_angle_contract :
    (∀ a b c : Option Landmark,
      0 ≤ calculate_angle a b c ∧ calculate_angle a b c ≤ 180 ∧
        calculate_angle a b c < 180) ∧
    (∀ b c, calculate_angle none b c = 0) ∧
    (∀ a c, calculate_angle a none c = 0) ∧
    (∀ a b, calculate_angle a b none = 0) :=
  ⟨fun a b c => ⟨calculate_angle_nonneg a b c, calculate_angle_le_180 a b c,
    calculate_angle_lt_180 a b c⟩,
   fun _ _ => rfl, fun a _ => by cases a <;> rfl,
   fun a b => by cases a <;> cases b <;> rfl⟩

/-- C2 counterexample: for the colinear landmarks `a = (1,0,0)`,
`b = (0,0,0)`, `c = (-1,0,0)` — with `b` strictly between `a` and `c` and
both vectors `b→a` and `b→c` non-zero — the returned angle is not exactly
180.0 (the spec's `angle(a,b,c) == 180.0` fails; the code computes
`arccos(-1/(1 + 1e-6))·180/π ≈ 179.92`). -/
theorem C2_colinear_counterexample :
    ((1:ℝ) - 0 ≠ 0 ∧ (-1:ℝ) - 0 ≠ 0 ∧ (0:ℝ) = (1 + -1) / 2) ∧
    calculate_angle (some ⟨1, 0, 0⟩) (some ⟨0, 0, 0⟩) (some ⟨-1, 0, 0⟩) ≠ 180 :=
  ⟨⟨by norm_num, by norm_num, by norm_num⟩,
   ne_of_lt (calculate_angle_lt_180 _ _ _)⟩

end Angles

namespace InjuryRisk

lemma analyze_frame_bounds {st : DetectorState} (h : CounterBounds st)
    (bio : Biomech) (ty : String) : CounterBounds (analyze_frame st bio ty) := by
  obtain ⟨h1, h2, h3, h4⟩ := h
  unfold analyze_frame CounterBounds
  dsimp only
  split <;> split <;> split <;> split <;>
    refine ⟨?_, ?_, ?_, ?_⟩ <;> dsimp only <;> omega

lemma runSession_bounds (frames : List (Biomech × String)) :
    CounterBounds (runSession frames) := by
  suffices h : ∀ st, CounterBounds st →
      CounterBounds (frames.foldl (fun st p => analyze_frame st p.1 p.2) st) by
    exact h initState ⟨by simp [initState], by simp [initState], by simp [initState],
      by simp [initState]⟩
  induction frames with
  | nil => intro st h; simpa using h
  | cons p rest ih =>
    intro st h
    exact ih _ (analyze_frame_bounds h p.1 p.2)

/-- C3 (amended): for every session, the ratios
`risk_counters[x] / total_frames * 100` lie in `[0, 100]` for
`shoulder_overuse`, `poor_kinetic_chain` and `knee_stress`; for
`elbow_strain` — which a single frame can increment twice (once as the
documented consequence of a poor kinetic chain and once by the elbow check) —
the ratio lies in `[0, 200]`. -/
theorem C3_risk_percentage_bounds (frames : List (Biomech × String))
    (h : (runSession frames).total_frames ≠ 0) :
    0 ≤ ((runSession frames).shoulder_overuse : ℚ) /
        ((runSession frames).total_frames : ℚ) * 100 ∧
    ((runSession frames).shoulder_overuse : ℚ) /
        ((runSession frames).total_frames : ℚ) * 100 ≤ 100 ∧
    0 ≤ ((runSession frames).poor_kinetic_chain : ℚ) /
        ((runSession frames).total_frames : ℚ) * 100 ∧
    ((runSession frames).poor_kinetic_chain : ℚ) /
        ((runSession frames).total_frames : ℚ) * 100 ≤ 100 ∧
    0 ≤ ((runSession frames).knee_stress : ℚ) /
        ((runSession frames).total_frames : ℚ) * 100 ∧
    ((runSession frames).knee_stress : ℚ) /
        ((runSession frames).total_frames : ℚ) * 100 ≤ 100 ∧
    0 ≤ ((runSession frames).elbow_strain : ℚ) /
        ((runSession frames).total_frames : ℚ) * 100 ∧
    ((runSession frames).elbow_strain : ℚ) /
        ((runSession frames).total_frames : ℚ) * 100 ≤ 200 := by
  obtain ⟨h1, h2, h3, h4⟩ := runSession_bounds frames
  set st := runSession frames
  have hn : (0:ℚ) < (st.total_frames : ℚ) := by
    have : 0 < st.total_frames := Nat.pos_of_ne_zero h
    exact_mod_cast this
  have hb : ∀ a : ℕ, a ≤ st.total_frames →
      (a : ℚ) / (st.total_frames : ℚ) * 100 ≤ 100 := by
    intro a ha
    rw [div_mul_eq_mul_div, div_le_iff₀ hn]
    have : (a : ℚ) ≤ (st.total_frames : ℚ) := by exact_mod_cast ha
    nlinarith
  have hb2 : ∀ a : ℕ, a ≤ 2 * st.total_frames →
      (a : ℚ) / (st.total_frames : ℚ) * 100 ≤ 200 := by
    intro a ha
    rw [div_mul_eq_mul_div, div_le_iff₀ hn]
    have : (a : ℚ) ≤ 2 * (st.total_frames : ℚ) := by exact_mod_cast ha
    nlinarith
  have hp : ∀ a : ℕ, 0 ≤ (a : ℚ) / (st.total_frames : ℚ) * 100 := by
    intro a
    positivity
  exact ⟨hp _, hb _ h1, hp _, hb _ h2, hp _, hb _ h3, hp _, hb2 _ h4⟩

/-- Instantiation of `C3_risk_percentage_bounds` for a one-frame session of
default biomechanics. -/
theorem C3_risk_percentage_bounds_witness :
    0 ≤ ((runSession [({}, "serve")]).shoulder_overuse : ℚ) /
        ((runSession [({}, "serve")]).total_frames : ℚ) * 100 ∧
    ((runSession [({}, "serve")]).shoulder_overuse : ℚ) /
        ((runSession [({}, "serve")]).total_frames : ℚ) * 100 ≤ 100 ∧
    0 ≤ ((runSession [({}, "serve")]).poor_kinetic_chain : ℚ) /
        ((runSession [({}, "serve")]).total_frames : ℚ) * 100 ∧
    ((runSession [({}, "serve")]).poor_kinetic_chain : ℚ) /
        ((runSession [({}, "serve")]).total_frames : ℚ) * 100 ≤ 100 ∧
    0 ≤ ((runSession [({}, "serve")]).knee_stress : ℚ) /
        ((runSession [({}, "serve")]).total_frames : ℚ) * 100 ∧
    ((runSession [({}, "serve")]).knee_stress : ℚ) /
        ((runSession [({}, "serve")]).total_frames : ℚ) * 100 ≤ 100 ∧
    0 ≤ ((runSession [({}, "serve")]).elbow_strain : ℚ) /
        ((runSession [({}, "serve")]).total_frames : ℚ) * 100 ∧
    ((runSession [({}, "serve")]).elbow_strain : ℚ) /
        ((runSession [({}, "serve")]).total_frames : ℚ) * 100 ≤ 200 :=
  C3_risk_percentage_bounds [({}, "serve")] (by decide)

/-- C3 counterexample: a single frame whose biomechanics show a poor kinetic
chain during a serve and an elbow outside the optimal range increments
`elbow_strain` twice, so `risk_counters['elbow_strain'] / total_frames * 100
= 200 > 100` and the claimed bound `[0, 100]` fails for `elbow_strain`. -/
theorem C3_elbow_ratio_counterexample :
    ((runSession [(Biomech.mk "safe" "poor" "normal" false, "serve")]).elbow_strain : ℚ) /
      ((runSession [(Biomech.mk "safe" "poor" "normal" false, "serve")]).total_frames : ℚ) * 100
      > 100 := by
  have h : runSession [(Biomech.mk "safe" "poor" "normal" false, "serve")] =
      DetectorState.mk 1 0 2 0 1 := rfl
  rw [h]
  norm_num

/-- C8: for every non-empty session, the overall risk of the summary is
`high` iff at least two alerts were emitted, `medium` iff exactly one, `low`
otherwise, and when the risk is low a positive-reinforcement recommendation
(the `Excellent Biomechanics` block) is appended at the end of the
recommendation list. -/
theorem C8_overall_risk (st : DetectorState) (h : st.total_frames ≠ 0) :
    ((get_session_summary st).overall_risk = "high" ↔
      2 ≤ (get_session_summary st).alerts.length) ∧
    ((get_session_summary st).overall_risk = "medium" ↔
      (get_session_summary st).alerts.length = 1) ∧
    ((get_session_summary st).overall_risk = "low" ↔
      (get_session_summary st).alerts.length = 0) ∧
    ((get_session_summary st).overall_risk = "low" →
      (get_session_summary st).recommendations.getLast? =
        some "Excellent Biomechanics") := by
  unfold get_session_summary
  rw [if_neg h]
  by_cases c1 : (st.shoulder_overuse : ℚ) / (st.total_frames : ℚ) * 100 > 10 <;>
    by_cases c2 : (st.poor_kinetic_chain : ℚ) / (st.total_frames : ℚ) * 100 > 20 <;>
      by_cases c3 : (st.knee_stress : ℚ) / (st.total_frames : ℚ) * 100 > 15 <;>
        by_cases c4 : (st.elbow_strain : ℚ) / (st.total_frames : ℚ) * 100 > 15 <;>
          simp [c1, c2, c3, c4]

/-- Instantiation of `C8_overall_risk` at a one-frame session with no risky
frames (all the counters zero, hence no alerts and low risk). -/
theorem C8_overall_risk_witness :
    (((get_session_summary (DetectorState.mk 1 0 0 0 0)).overall_risk = "high" ↔
      2 ≤ (get_session_summary (DetectorState.mk 1 0 0 0 0)).alerts.length) ∧
    ((get_session_summary (DetectorState.mk 1 0 0 0 0)).overall_risk = "medium" ↔
      (get_session_summary (DetectorState.mk 1 0 0 0 0)).alerts.length = 1) ∧
    ((get_session_summary (DetectorState.mk 1 0 0 0 0)).overall_risk = "low" ↔
      (get_session_summary (DetectorState.mk 1 0 0 0 0)).alerts.length = 0) ∧
    ((get_session_summary (DetectorState.mk 1 0 0 0 0)).overall_risk = "low" →
      (get_session_summary (DetectorState.mk 1 0 0 0 0)).recommendations.getLast? =
        some "Excellent Biomechanics")) :=
  C8_overall_risk (DetectorState.mk 1 0 0 0 0) (by decide)

/-- C10: calling `get_session_summary` after zero analyzed frames returns
`total_frames = 0`, `overall_risk = 'unknown'` — a value outside
`{low, medium, high}` — empty alert and recommendation lists, and a
dictionary with no `risk_counters` or `percentages` keys (the `none`
fields). -/
theorem C10_empty_session :
    get_session_summary
        (List.foldl (fun st p => analyze_frame st p.1 p.2) initState
          ([] : List (Biomech × String))) =
      { total_frames := 0, overall_risk := "unknown", alerts := [],
        recommendations := [], risk_counters := none, percentages := none } ∧
    (get_session_summary initState).overall_risk ≠ "low" ∧
    (get_session_summary initState).overall_risk ≠ "medium" ∧
    (get_session_summary initState).overall_risk ≠ "high" :=
  ⟨rfl, by decide, by decide, by decide⟩

end InjuryRisk

namespace Classify

lemma runMaxConf_append (run : List Ev) (e : Ev) (h : run ≠ []) :
    runMaxConf (run ++ [e]) = max (runMaxConf run) e.conf := by
  match run with
  | [] => exact absurd rfl h
  | r :: rs => simp [runMaxConf, List.foldl_append]

lemma rleAux_eq_runs (stream : List Ev) :
    ∀ (run : List Ev) (ty : String) (st : ℤ) (cm : ℚ) (cc : ℕ) (prevIdx : ℤ),
      run ≠ [] →
      ((run.head?).map Ev.ty).getD "" = ty →
      ((run.head?).map Ev.idx).getD 0 = st →
      ((run.getLast?).map Ev.idx).getD 0 = prevIdx →
      runMaxConf run = cm →
      run.length = cc →
      rleAux (some (ty, st, cm, cc)) prevIdx stream =
        (runsAux run stream).map segOfRun := by
  induction stream with
  | nil =>
    intro run ty st cm cc prevIdx hne hty hst hlast hcm hcc
    match run with
    | r :: rs =>
      have hccpos : 0 < cc := by
        rw [← hcc]; simp
      simp at hty hst
      simp [rleAux, runsAux, segOfRun, hccpos, hty, hst, hlast, hcm]
  | cons e rest ih =>
    intro run ty st cm cc prevIdx hne hty hst hlast hcm hcc
    match run with
    | r :: rs =>
      have hccpos : 0 < cc := by
        rw [← hcc]; simp
      simp at hty hst
      by_cases hety : e.ty = ty
      · have hbranch : e.ty = r.ty := by rw [hety, ← hty]
        simp only [rleAux, runsAux, if_pos hety, if_pos hbranch]
        rw [ih ((r :: rs) ++ [e]) ty st (max cm e.conf) (cc + 1) e.idx]
        · simp
        · simp [hty]
        · simp [hst]
        · rw [List.getLast?_concat]; simp
        · rw [runMaxConf_append _ _ (by simp), hcm]
        · simp [← hcc]
      · have hbranch : ¬ e.ty = r.ty := by rw [hty]; exact hety
        simp only [rleAux, runsAux, if_neg hety, if_neg hbranch]
        rw [ih [e] e.ty e.idx e.conf 1 e.idx (by simp) (by simp) (by simp) (by simp)
          (by simp [runMaxConf]) (by simp)]
        simp only [List.map_cons]
        refine congrArg (fun s => s :: _) ?_
        simp [segOfRun, hccpos, hty, hst, hlast, hcm]

/-- The run-length encoder of `detect_segments` is exactly the per-run
map (start, end, type, rounded max confidence) over the maximal same-type
runs of the classification stream. -/
lemma rle_eq_runs (stream : List Ev) :
    rleAux none 0 stream = (runsAux [] stream).map segOfRun := by
  match stream with
  | [] => simp [rleAux, runsAux]
  | e :: rest =>
    simp only [rleAux, runsAux]
    exact rleAux_eq_runs rest [e] e.ty e.idx e.conf 1 e.idx (by simp) (by simp)
      (by simp) (by simp) (by simp [runMaxConf]) (by simp)

lemma mergeStep_chain {acc : List Seg} (s : Seg)
    (h : List.Chain' (fun b a => goodAdj a b) acc) :
    List.Chain' (fun b a => goodAdj a b) (mergeStep acc s) := by
  match acc with
  | [] => simp [mergeStep]
  | last :: rest =>
    by_cases hc : last.stroke_type = s.stroke_type ∧
        s.start_frame - last.end_frame - 1 ≤ 3
    · simp only [mergeStep, if_pos hc]
      rw [List.chain'_cons'] at h ⊢
      refine ⟨?_, h.2⟩
      intro b hb
      have := h.1 b hb
      simpa [goodAdj] using this
    · simp only [mergeStep, if_neg hc]
      rw [List.chain'_cons']
      exact ⟨fun b hb => by simp at hb; subst hb; exact hc, h⟩

lemma merge_foldl_chain (l : List Seg) :
    ∀ acc, List.Chain' (fun b a => goodAdj a b) acc →
      List.Chain' (fun b a => goodAdj a b) (l.foldl mergeStep acc) := by
  induction l with
  | nil => intro acc h; simpa using h
  | cons s rest ih => intro acc h; exact ih _ (mergeStep_chain s h)

/-- Every output of the merge pass satisfies the adjacency condition: no two
consecutive segments could be merged further. -/
lemma mergePass_chain (segs : List Seg) :
    List.Chain' goodAdj (mergePass segs) := by
  have h := merge_foldl_chain segs [] (by simp)
  unfold mergePass
  rw [List.chain'_reverse]
  simpa [flip] using h

lemma merge_foldl_id (l : List Seg) :
    ∀ acc, List.Chain' goodAdj l →
      (∀ a s, acc.head? = some a → l.head? = some s → goodAdj a s) →
      l.foldl mergeStep acc = l.reverse ++ acc := by
  induction l with
  | nil => intro acc _ _; simp
  | cons s rest ih =>
    intro acc hch hhd
    have hstep : mergeStep acc s = s :: acc := by
      match acc with
      | [] => simp [mergeStep]
      | a :: rest2 =>
        have hg : goodAdj a s := hhd a s rfl rfl
        simp only [mergeStep, if_neg hg]
    rw [List.foldl_cons, hstep]
    rw [List.chain'_cons'] at hch
    rw [ih (s :: acc) hch.2 ?_]
    · simp
    · intro a r ha hr
      simp at ha
      subst ha
      exact hch.1 r hr

/-- A list already satisfying the adjacency condition is a fixed point of the
merge pass. -/
lemma mergePass_of_chain {l : List Seg} (h : List.Chain' goodAdj l) :
    mergePass l = l := by
  unfold mergePass
  rw [merge_foldl_id l [] h (by intro a s ha _; simp at ha)]
  simp

lemma runsAux_flatten (stream : List Ev) :
    ∀ cur, (runsAux cur stream).flatten = cur ++ stream := by
  induction stream with
  | nil =>
    intro cur
    match cur with
    | [] => simp [runsAux]
    | c :: cs => simp [runsAux]
  | cons e rest ih =>
    intro cur
    match cur with
    | [] => simpa [runsAux] using ih [e]
    | c :: cs =>
      by_cases hty : e.ty = c.ty
      · simp only [runsAux, if_pos hty]
        rw [ih ((c :: cs) ++ [e])]
        simp
      · simp only [runsAux, if_neg hty, List.flatten_cons]
        rw [ih [e]]
        simp

lemma runsAux_ne_nil (stream : List Ev) :
    ∀ cur, cur ≠ [] → ∀ r ∈ runsAux cur stream, r ≠ [] := by
  induction stream with
  | nil =>
    intro cur hcur r hr
    match cur with
    | c :: cs =>
      simp [runsAux] at hr
      subst hr
      simp
  | cons e rest ih =>
    intro cur hcur r hr
    match cur with
    | c :: cs =>
      by_cases hty : e.ty = c.ty
      · rw [runsAux, if_pos hty] at hr
        exact ih _ (by simp) r hr
      · rw [runsAux, if_neg hty] at hr
        rcases List.mem_cons.mp hr with h | h
        · subst h; simp
        · exact ih [e] (by simp) r h

lemma runs_ne_nil (stream : List Ev) : ∀ r ∈ runsAux [] stream, r ≠ [] := by
  match stream with
  | [] => simp [runsAux]
  | e :: rest =>
    rw [runsAux]
    exact runsAux_ne_nil rest [e] (by simp)

lemma head_idx_le_getLast_idx {run : List Ev} (hne : run ≠ [])
    (h : run.Pairwise IdxLt) :
    ((run.head?).map Ev.idx).getD 0 ≤ ((run.getLast?).map Ev.idx).getD 0 := by
  match run with
  | r :: rs =>
    have hlast : (r :: rs).getLast? = some ((r :: rs).getLast (by simp)) :=
      List.getLast?_eq_getLast _ _
    rw [hlast]
    have hmem := List.getLast_mem (l := r :: rs) (by simp)
    rcases List.mem_cons.mp hmem with hh | hh
    · simp [hh]
    · have hlt := (List.pairwise_cons.mp h).1 _ hh
      simpa using le_of_lt hlt

/-- A segment of the run-length encoding is well formed: its end frame is at
least its start frame, provided the stream indices are strictly increasing. -/
lemma segOfRun_wf {run : List Ev} (hne : run ≠ []) (h : run.Pairwise IdxLt) :
    (segOfRun run).start_frame ≤ (segOfRun run).end_frame :=
  head_idx_le_getLast_idx hne h

/-- If the whole classification stream has strictly increasing indices, the
mapped run segments are strictly ordered (each ends before the next starts)
and individually well formed. -/
lemma runs_map_ordered (stream : List Ev) (h : stream.Pairwise IdxLt) :
    (∀ s ∈ (runsAux [] stream).map segOfRun, s.start_frame ≤ s.end_frame) ∧
      ((runsAux [] stream).map segOfRun).Pairwise
        (fun s t => s.end_frame < t.start_frame) := by
  have hflat : (runsAux [] stream).flatten = stream := by
    simpa using runsAux_flatten stream []
  have hpw : ((runsAux [] stream).flatten).Pairwise IdxLt := by rw [hflat]; exact h
  rw [List.pairwise_flatten] at hpw
  obtain ⟨hin, hbetween⟩ := hpw
  constructor
  · intro s hs
    rw [List.mem_map] at hs
    obtain ⟨run, hrun, rfl⟩ := hs
    exact segOfRun_wf (runs_ne_nil stream run hrun) (hin run hrun)
  · rw [List.pairwise_map]
    refine List.Pairwise.imp_of_mem ?_ hbetween
    intro ra rb hra hrb hall
    have hnea := runs_ne_nil stream ra hra
    have hneb := runs_ne_nil stream rb hrb
    match ra, rb with
    | a :: as1, b :: bs1 =>
      simp only [segOfRun]
      have hlasta : (a :: as1).getLast? = some ((a :: as1).getLast (by simp)) :=
        List.getLast?_eq_getLast _ _
      rw [hlasta]
      simp only [List.head?_cons, Option.map_some, Option.getD_some]
      exact hall _ (List.getLast_mem (by simp)) _ (by simp)

lemma merge_foldl_len3 (l : List Seg) :
    ∀ acc, (∀ t ∈ acc, Len3 t) → (∀ s ∈ l, Len3 s) →
      (∀ s ∈ l, ∀ t ∈ acc, t.start_frame ≤ s.start_frame) →
      l.Pairwise (fun a b => a.end_frame < b.start_frame) →
      ∀ t ∈ l.foldl mergeStep acc, Len3 t := by
  induction l with
  | nil => intro acc hacc _ _ _ t ht; exact hacc t ht
  | cons s rest ih =>
    intro acc hacc hl hord hpw t ht
    rw [List.foldl_cons] at ht
    have hs3 : Len3 s := hl s (by simp)
    have hpw2 := List.pairwise_cons.mp hpw
    refine ih (mergeStep acc s) ?_ (fun u hu => hl u (by simp [hu])) ?_ hpw2.2 t ht
    · intro u hu
      match acc with
      | [] =>
        simp [mergeStep] at hu
        subst hu; exact hs3
      | last :: rest2 =>
        by_cases hc : last.stroke_type = s.stroke_type ∧
            s.start_frame - last.end_frame - 1 ≤ 3
        · rw [mergeStep, if_pos hc] at hu
          rcases List.mem_cons.mp hu with hh | hh
          · subst hh
            have hls : last.start_frame ≤ s.start_frame :=
              hord s (by simp) last (by simp)
            have : Len3 s := hs3
            unfold Len3 at this ⊢
            dsimp only
            omega
          · exact hacc _ (by simp [hh])
        · rw [mergeStep, if_neg hc] at hu
          rcases List.mem_cons.mp hu with hh | hh
          · subst hh; exact hs3
          · exact hacc _ hh
    · intro u hu v hv
      have hse : s.end_frame < u.start_frame := hpw2.1 u hu
      have hss : s.start_frame ≤ u.start_frame := by
        unfold Len3 at hs3; omega
      match acc with
      | [] =>
        simp [mergeStep] at hv
        subst hv; exact hss
      | last :: rest2 =>
        by_cases hc : last.stroke_type = s.stroke_type ∧
            s.start_frame - last.end_frame - 1 ≤ 3
        · rw [mergeStep, if_pos hc] at hv
          rcases List.mem_cons.mp hv with hh | hh
          · subst hh
            have := hord s (by simp) last (by simp)
            dsimp only
            omega
          · exact hord u (by simp [hu]) v (by simp [hh])
        · rw [mergeStep, if_neg hc] at hv
          rcases List.mem_cons.mp hv with hh | hh
          · subst hh; exact hss
          · exact hord u (by simp [hu]) v hh

/-- Every segment surviving `filterShort` has length at least 3 and a
non-unknown type. -/
lemma filterShort_mem {segs : List Seg} {s : Seg} (h : s ∈ filterShort segs) :
    s ∈ segs ∧ s.stroke_type ≠ "unknown" ∧ Len3 s := by
  rw [filterShort, List.mem_filter] at h
  refine ⟨h.1, ?_⟩
  have := of_decide_eq_true h.2
  exact ⟨this.1, this.2⟩

/-- Output of `detect_segments` is well formed when the input frame indices are
strictly increasing: every emitted segment has `end ≥ start` and spans at
least 3 literal frames. -/
lemma detect_segments_wf (frames : List Metrics) (target_type : Option String)
    (hpw : frames.Pairwise (fun a b => a.frame_idx < b.frame_idx)) :
    ∀ s ∈ detect_segments frames target_type,
      s.start_frame ≤ s.end_frame ∧ Len3 s := by
  have hidx : ∀ (h : List Metrics) (fs : List Metrics),
      (classifyStream target_type h fs).map Ev.idx = fs.map Metrics.frame_idx := by
    intro h fs
    induction fs generalizing h with
    | nil => simp [classifyStream]
    | cons m rest ih => simp [classifyStream, ih]
  set stream := classifyStream target_type [] frames with hstream
  have hpws : stream.Pairwise IdxLt := by
    have h1 : (stream.map Ev.idx).Pairwise (fun a b : ℤ => a < b) := by
      rw [hidx [] frames]
      exact (List.pairwise_map).mpr (by exact hpw)
    have := (List.pairwise_map).mp h1
    exact this
  obtain ⟨hwf, hord⟩ := runs_map_ordered stream hpws
  rw [← rle_eq_runs] at hwf hord
  -- after the short filter
  have hwf2 : ∀ s ∈ filterShort (rleAux none 0 stream), Len3 s := by
    intro s hs
    exact (filterShort_mem hs).2.2
  have hord2 : (filterShort (rleAux none 0 stream)).Pairwise
      (fun a b => a.end_frame < b.start_frame) :=
    hord.sublist (List.filter_sublist _)
  intro s hs
  have h3 : Len3 s := by
    unfold detect_segments at hs
    rw [← hstream] at hs
    unfold mergePass at hs
    rw [List.mem_reverse] at hs
    exact merge_foldl_len3 _ [] (by simp) hwf2 (by simp) hord2 s hs
  exact ⟨by unfold Len3 at h3; omega, h3⟩

/-- C4: the confidence of every segment produced by the run-length encoder of
`StrokeClassifier.detect_segments` is the (rounded) maximum per-frame
classification confidence over the frames of its run — the encoder output is
exactly the per-run map of `segOfRun`, whose confidence field is the rounded
fold of `max` over the run's confidences (not the average) — and when the
merge pass merges two adjacent same-type segments separated by a gap of at
most 3 frames, the merged segment keeps the first segment's start, takes the
second segment's end frame and the maximum of the two confidences. -/
theorem C4_confidence_is_max :
    (∀ stream : List Ev,
      rleAux none 0 stream = (runsAux [] stream).map segOfRun) ∧
    (∀ (last : Seg) (rest : List Seg) (seg : Seg),
      last.stroke_type = seg.stroke_type →
      seg.start_frame - last.end_frame - 1 ≤ 3 →
      mergeStep (last :: rest) seg =
        { last with end_frame := seg.end_frame,
                    confidence := max last.confidence seg.confidence } :: rest) :=
  ⟨rle_eq_runs,
   fun last rest seg h1 h2 => by simp [mergeStep, h1, h2]⟩

/-- Instantiation of `C4_confidence_is_max`: a concrete two-type stream, and
a concrete merge of two serve segments with gap 2. -/
theorem C4_confidence_is_max_witness :
    (rleAux none 0
        [Ev.mk 0 "serve" (79/100), Ev.mk 1 "serve" (61/100), Ev.mk 2 "dink" (75/100)] =
      (runsAux []
        [Ev.mk 0 "serve" (79/100), Ev.mk 1 "serve" (61/100), Ev.mk 2 "dink" (75/100)]).map
        segOfRun) ∧
    mergeStep [Seg.mk 0 4 "serve" (79/100)] (Seg.mk 7 10 "serve" (85/100)) =
      [{ Seg.mk 0 4 "serve" (79/100) with end_frame := 10, confidence := max (79/100) (85/100) }] :=
  ⟨C4_confidence_is_max.1 _,
   C4_confidence_is_max.2 (Seg.mk 0 4 "serve" (79/100)) []
     (Seg.mk 7 10 "serve" (85/100)) rfl (by decide)⟩

/-- C6: the gap-merge pass of `StrokeClassifier.detect_segments` is
idempotent — applying the merge pass to its own output returns an identical
segment list (consecutive survivors of a merge pass never satisfy the merge
condition, so no further merging occurs). -/
theorem C6_merge_idempotent (segs : List Seg) :
    mergePass (mergePass segs) = mergePass segs :=
  mergePass_of_chain (mergePass_chain segs)

/-- C7 (amended): for every frame sequence in which wrist-y decreases by 0.02
per frame for 3 consecutive frames while hip-y stays at 0.5, wrist-y crosses
below hip-y, and the remaining metrics keep their default values,
`classify_stroke_enhanced` classifies the final frame as `serve` with
confidence 0.79 ≥ 0.75. -/
theorem C7_serve_scenario (w0 : ℚ) (h1 : 1/2 ≤ w0) (h2 : w0 < 27/50) :
    (serveFrame w0 0).right_hip_y ≤ (serveFrame w0 0).right_wrist_y ∧
    (serveFrame (w0 - 1/25) 2).right_wrist_y <
      (serveFrame (w0 - 1/25) 2).right_hip_y ∧
    classify_stroke_enhanced (serveFrame (w0 - 1/25) 2)
      [serveFrame w0 0, serveFrame (w0 - 1/50) 1] none none =
      ("serve", 79/100, "underhand") ∧
    (79:ℚ)/100 ≥ 3/4 := by
  refine ⟨by unfold serveFrame; dsimp only; linarith,
    by unfold serveFrame; dsimp only; linarith, ?_, by norm_num⟩
  have hlt1 : w0 - 1/25 < w0 - 1/50 := by linarith
  have hlt2 : w0 - 1/50 < w0 := by linarith
  have habs : |(1:ℚ)/50| = 1/50 := abs_of_pos (by norm_num)
  have hv : compute_velocity (serveFrame (w0 - 1/25) 2)
      [serveFrame w0 0, serveFrame (w0 - 1/50) 1] = (-(1/50), 0, 1/50) := by
    unfold compute_velocity serveFrame
    norm_num
  have hcu : count_upward_frames
      ([serveFrame w0 0, serveFrame (w0 - 1/50) 1] ++ [serveFrame (w0 - 1/25) 2]) = 2 := by
    unfold count_upward_frames
    norm_num [countUpAux, serveFrame, hlt1, hlt2]
  have hrh : recentHadServeVelocity [serveFrame w0 0, serveFrame (w0 - 1/50) 1] = true := by
    unfold recentHadServeVelocity serveFrame
    norm_num [habs, abs_neg]
  have hov : is_overhead (serveFrame (w0 - 1/25) 2) = (false, 0) := by
    unfold is_overhead serveFrame
    norm_num
  have hsrv : is_serve (serveFrame (w0 - 1/25) 2)
      [serveFrame w0 0, serveFrame (w0 - 1/50) 1] = (true, 79/100) := by
    unfold is_serve
    rw [hv, hcu, hrh]
    have e1 : (serveFrame (w0 - 1/25) 2).right_hip_y -
        (serveFrame (w0 - 1/25) 2).right_wrist_y ≤ 1/5 := by
      unfold serveFrame; dsimp only; linarith
    have e2 : ¬ (20 ≤ (serveFrame (w0 - 1/25) 2).right_shoulder_abduction ∧
        (serveFrame (w0 - 1/25) 2).right_shoulder_abduction ≤ 100) := by
      unfold serveFrame; dsimp only; intro hc; exact absurd hc.1 (by norm_num)
    have e3 : ¬ (|(serveFrame (w0 - 1/25) 2).hip_rotation_deg| ≥ 3) := by
      unfold serveFrame; dsimp only; norm_num
    simp only [serveFrame] at e1 e2 e3 ⊢
    norm_num [e1, e2, e3]
  unfold classify_stroke_enhanced
  rw [hov, hsrv]
  simp
  norm_num

/-- Instantiation of `C7_serve_scenario` at the wrist heights
0.52 / 0.50 / 0.48. -/
theorem C7_serve_scenario_witness :
    (serveFrame (13/25) 0).right_hip_y ≤ (serveFrame (13/25) 0).right_wrist_y ∧
    (serveFrame ((13:ℚ)/25 - 1/25) 2).right_wrist_y <
      (serveFrame ((13:ℚ)/25 - 1/25) 2).right_hip_y ∧
    classify_stroke_enhanced (serveFrame ((13:ℚ)/25 - 1/25) 2)
      [serveFrame (13/25) 0, serveFrame ((13:ℚ)/25 - 1/50) 1] none none =
      ("serve", 79/100, "underhand") ∧
    (79:ℚ)/100 ≥ 3/4 :=
  C7_serve_scenario (13/25) (by norm_num) (by norm_num)

/-- C7 counterexample: a frame sequence satisfying the claimed scenario
premises verbatim — wrist-y 0.52 / 0.50 / 0.48 (decreasing by 0.02 per
frame), hip-y fixed at 0.5, wrist crossing below hip-y — but whose shoulder
abduction is 115 and nose-y is 0.8, is classified `overhead` (confidence
0.85), not `serve`: the claim is false when it quantifies over all frame
sequences matching the scenario. -/
theorem C7_scenario_counterexample :
    ((Metrics.mk 0 (13/25) (4/5) 115 (1/2) 0 180 (1/2) (1/2)).right_wrist_y -
        (Metrics.mk 1 (1/2) (4/5) 115 (1/2) 0 180 (1/2) (1/2)).right_wrist_y = 1/50 ∧
      (Metrics.mk 1 (1/2) (4/5) 115 (1/2) 0 180 (1/2) (1/2)).right_wrist_y -
        (Metrics.mk 2 (12/25) (4/5) 115 (1/2) 0 180 (1/2) (1/2)).right_wrist_y = 1/50 ∧
      (Metrics.mk 0 (13/25) (4/5) 115 (1/2) 0 180 (1/2) (1/2)).right_hip_y = 1/2 ∧
      (Metrics.mk 1 (1/2) (4/5) 115 (1/2) 0 180 (1/2) (1/2)).right_hip_y = 1/2 ∧
      (Metrics.mk 2 (12/25) (4/5) 115 (1/2) 0 180 (1/2) (1/2)).right_hip_y = 1/2 ∧
      (Metrics.mk 2 (12/25) (4/5) 115 (1/2) 0 180 (1/2) (1/2)).right_wrist_y < 1/2) ∧
    (classify_stroke_enhanced (Metrics.mk 2 (12/25) (4/5) 115 (1/2) 0 180 (1/2) (1/2))
      [Metrics.mk 0 (13/25) (4/5) 115 (1/2) 0 180 (1/2) (1/2),
       Metrics.mk 1 (1/2) (4/5) 115 (1/2) 0 180 (1/2) (1/2)] none none).1 = "overhead" ∧
    (classify_stroke_enhanced (Metrics.mk 2 (12/25) (4/5) 115 (1/2) 0 180 (1/2) (1/2))
      [Metrics.mk 0 (13/25) (4/5) 115 (1/2) 0 180 (1/2) (1/2),
       Metrics.mk 1 (1/2) (4/5) 115 (1/2) 0 180 (1/2) (1/2)] none none).1 ≠ "serve" := by
  have hov : is_overhead (Metrics.mk 2 (12/25) (4/5) 115 (1/2) 0 180 (1/2) (1/2)) =
      (true, 17/20) := by
    unfold is_overhead
    norm_num
  have hcl : classify_stroke_enhanced (Metrics.mk 2 (12/25) (4/5) 115 (1/2) 0 180 (1/2) (1/2))
      [Metrics.mk 0 (13/25) (4/5) 115 (1/2) 0 180 (1/2) (1/2),
       Metrics.mk 1 (1/2) (4/5) 115 (1/2) 0 180 (1/2) (1/2)] none none =
      ("overhead", 17/20, "smash") := by
    unfold classify_stroke_enhanced
    rw [hov]
    norm_num
  refine ⟨⟨by norm_num, by norm_num, rfl, rfl, rfl, by norm_num⟩, ?_, ?_⟩
  · rw [hcl]
  · rw [hcl]
    simp

end Classify

namespace Pipeline

lemma gate_foldl_mem (cfg : GateCfg) (l : List Stroke) :
    ∀ acc, (∀ t ∈ acc, t.end_frame - t.start_frame + 1 ≥ cfg.min_len_frames) →
      ∀ t ∈ l.foldl (gateStep cfg) acc,
        t.end_frame - t.start_frame + 1 ≥ cfg.min_len_frames := by
  induction l with
  | nil => intro acc hacc t ht; exact hacc t ht
  | cons s rest ih =>
    intro acc hacc t ht
    rw [List.foldl_cons] at ht
    refine ih (gateStep cfg acc s) ?_ t ht
    intro u hu
    unfold gateStep at hu
    split at hu
    · exact hacc u hu
    · split at hu
      · exact hacc u hu
      · split at hu
        · exact hacc u hu
        · split at hu
          · exact hacc u hu
          · rcases List.mem_append.mp hu with h | h
            · exact hacc u h
            · simp at h
              subst h
              omega

/-- Every stroke surviving the gate satisfies the per-type minimum length. -/
lemma gateFilter_len (cfg : GateCfg) (strokes : List Stroke) :
    ∀ t ∈ gateFilter cfg strokes,
      t.end_frame - t.start_frame + 1 ≥ cfg.min_len_frames := by
  intro t ht
  exact gate_foldl_mem cfg _ [] (by simp) t ht

lemma dominant_aux (l : List (ℤ × ℕ)) :
    ∀ b : ℤ × ℕ,
      ∃ d, l.foldl
          (fun best p =>
            match best with
            | none => some p
            | some b => if p.2 > b.2 then some p else best)
          (some b) = some d ∧
        (d = b ∨ d ∈ l) ∧ b.2 ≤ d.2 ∧ ∀ p ∈ l, p.2 ≤ d.2 := by
  induction l with
  | nil =>
    intro b
    exact ⟨b, rfl, Or.inl rfl, le_refl _, by simp⟩
  | cons p rest ih =>
    intro b
    by_cases hgt : p.2 > b.2
    · obtain ⟨d, hfold, hmem, hle, hall⟩ := ih p
      refine ⟨d, ?_, ?_, ?_, ?_⟩
      · simpa [hgt] using hfold
      · rcases hmem with h | h
        · exact Or.inr (by simp [h])
        · exact Or.inr (by simp [h])
      · omega
      · intro q hq
        rcases List.mem_cons.mp hq with h | h
        · subst h; exact hle
        · exact hall q h
    · obtain ⟨d, hfold, hmem, hle, hall⟩ := ih b
      refine ⟨d, ?_, ?_, hle, ?_⟩
      · simpa [hgt] using hfold
      · rcases hmem with h | h
        · exact Or.inl h
        · exact Or.inr (by simp [h])
      · intro q hq
        rcases List.mem_cons.mp hq with h | h
        · subst h; omega
        · exact hall q h

/-- On a nonempty count list, the dominant id exists, is one of the keys, and
its count is greatest. -/
lemma dominantId_spec (c : ℤ × ℕ) (rest : List (ℤ × ℕ)) :
    ∃ d, dominantId (c :: rest) = some d ∧ d ∈ c :: rest ∧
      ∀ p ∈ c :: rest, p.2 ≤ d.2 := by
  obtain ⟨d, hfold, hmem, hle, hall⟩ := dominant_aux rest c
  refine ⟨d, ?_, ?_, ?_⟩
  · simpa [dominantId] using hfold
  · rcases hmem with h | h
    · simp [h]
    · simp [h]
  · intro p hp
    rcases List.mem_cons.mp hp with h | h
    · subst h; exact hle
    · exact hall p h

/-- The validation of a single stroke always succeeds (it never drops a
stroke or aborts). -/
lemma validateStroke_isSome (results : List FrameResult) (target : Option ℤ)
    (s : VStroke) : ∃ s2, validateStroke results target s = some s2 := by
  unfold validateStroke
  match h : idCounts results s.start_frame s.end_frame with
  | [] => exact ⟨_, rfl⟩
  | [(tid, n)] => exact ⟨_, rfl⟩
  | c :: c2 :: rest =>
    obtain ⟨d, hdom, _, _⟩ := dominantId_spec c (c2 :: rest)
    exact ⟨_, by dsimp only; rw [hdom]⟩

lemma validateStrokes_length (results : List FrameResult) (target : Option ℤ)
    (strokes : List VStroke) :
    (validateStrokes results target strokes).length = strokes.length := by
  induction strokes with
  | nil => rfl
  | cons s rest ih =>
    obtain ⟨s2, hs⟩ := validateStroke_isSome results target s
    unfold validateStrokes at ih ⊢
    rw [List.filterMap_cons, hs]
    simp [ih]

/-- In the mixed-identity case the validated stroke carries the flag and the
dominant (most frequent) id. -/
lemma validateStroke_mixed (results : List FrameResult) (target : Option ℤ)
    (s : VStroke) (h2 : 2 ≤ (idCounts results s.start_frame s.end_frame).length) :
    ∃ s2, validateStroke results target s = some s2 ∧
      s2.multi_id_warning = true ∧
      ∃ n, (s2.track_id, n) ∈ idCounts results s.start_frame s.end_frame ∧
        ∀ p ∈ idCounts results s.start_frame s.end_frame, p.2 ≤ n := by
  unfold validateStroke
  match hc : idCounts results s.start_frame s.end_frame with
  | [] => rw [hc] at h2; simp at h2
  | [(tid, n)] => rw [hc] at h2; simp at h2
  | c :: c2 :: rest =>
    obtain ⟨d, hdom, hmem, hall⟩ := dominantId_spec c (c2 :: rest)
    refine ⟨{ s with track_id := d.1, multi_id_warning := true }, ?_, rfl, d.2, ?_, hall⟩
    · dsimp only
      rw [hdom]
    · simpa using hmem

/-- C9: the single-ID validation of `track.py` associates every stroke in the
final output with exactly one `track_id` and never drops a stroke (the
validated list has the same length as the input); and whenever the frames of
a stroke window carry at least two distinct track identifiers, the assigned
identifier is one occurring most often among those frames (its count is
maximal) and the stroke is flagged with `multi_id_warning`. -/
theorem C9_single_id (results : List FrameResult) (target : Option ℤ)
    (strokes : List VStroke) :
    (validateStrokes results target strokes).length = strokes.length ∧
    ∀ s ∈ strokes, 2 ≤ (idCounts results s.start_frame s.end_frame).length →
      ∃ s2, validateStroke results target s = some s2 ∧
        s2.multi_id_warning = true ∧
        ∃ n, (s2.track_id, n) ∈ idCounts results s.start_frame s.end_frame ∧
          ∀ p ∈ idCounts results s.start_frame s.end_frame, p.2 ≤ n :=
  ⟨validateStrokes_length results target strokes,
   fun s _ h2 => validateStroke_mixed results target s h2⟩

/-- Instantiation of `C9_single_id`: three frames carrying ids 1, 2, 2 inside
the window of a single stroke; the mixed-identity case applies (id 2 wins the
vote). -/
theorem C9_single_id_witness :
    (validateStrokes [FrameResult.mk 0 1, FrameResult.mk 1 2, FrameResult.mk 2 2]
        (some 1) [VStroke.mk 0 2 "serve" (-1) false]).length =
      [VStroke.mk 0 2 "serve" (-1) false].length ∧
    ∃ s2, validateStroke [FrameResult.mk 0 1, FrameResult.mk 1 2, FrameResult.mk 2 2]
        (some 1) (VStroke.mk 0 2 "serve" (-1) false) = some s2 ∧
      s2.multi_id_warning = true ∧
      ∃ n, (s2.track_id, n) ∈ idCounts
          [FrameResult.mk 0 1, FrameResult.mk 1 2, FrameResult.mk 2 2] 0 2 ∧
        ∀ p ∈ idCounts
            [FrameResult.mk 0 1, FrameResult.mk 1 2, FrameResult.mk 2 2] 0 2,
          p.2 ≤ n :=
  ⟨(C9_single_id [FrameResult.mk 0 1, FrameResult.mk 1 2, FrameResult.mk 2 2]
      (some 1) [VStroke.mk 0 2 "serve" (-1) false]).1,
   (C9_single_id [FrameResult.mk 0 1, FrameResult.mk 1 2, FrameResult.mk 2 2]
      (some 1) [VStroke.mk 0 2 "serve" (-1) false]).2
     (VStroke.mk 0 2 "serve" (-1) false) (by simp) (by decide)⟩

/-- C5: every `StrokeSegment` emitted by the segmentation pipeline on a frame
sequence with strictly increasing `frame_idx` values satisfies
`end_frame ≥ start_frame` and spans at least 3 literal frames
(the `detect_segments` minimum), and every stroke surviving the second-pass
per-stroke gate spans at least the per-type `min_len_frames`. -/
theorem C5_segment_length_floor :
    (∀ (frames : List Classify.Metrics) (target_type : Option String),
      frames.Pairwise (fun a b => a.frame_idx < b.frame_idx) →
      ∀ s ∈ Classify.detect_segments frames target_type,
        s.start_frame ≤ s.end_frame ∧ s.end_frame - s.start_frame + 1 ≥ 3) ∧
    (∀ (cfg : GateCfg) (strokes : List Stroke),
      ∀ t ∈ gateFilter cfg strokes,
        t.end_frame - t.start_frame + 1 ≥ cfg.min_len_frames ∧
          (1 ≤ cfg.min_len_frames → t.start_frame ≤ t.end_frame)) :=
  ⟨fun frames tt hpw s hs => by
      have h := Classify.detect_segments_wf frames tt hpw s hs
      exact ⟨h.1, h.2⟩,
   fun cfg strokes t ht => by
      have h := gateFilter_len cfg strokes t ht
      exact ⟨h, fun h1 => by omega⟩⟩

/-- Instantiation of `C5_segment_length_floor`: three strictly increasing
frames with shoulder abduction 60 (classified `volley` throughout), and the
serve gate configuration on a concrete stroke list. -/
theorem C5_segment_length_floor_witness :
    (∀ s ∈ Classify.detect_segments
        [{ frame_idx := 0, right_shoulder_abduction := 60 },
         { frame_idx := 1, right_shoulder_abduction := 60 },
         { frame_idx := 2, right_shoulder_abduction := 60 }] none,
      s.start_frame ≤ s.end_frame ∧ s.end_frame - s.start_frame + 1 ≥ 3) ∧
    (∀ t ∈ gateFilter (GateCfg.mk (78/100) (18/100) 4 30)
        [Stroke.mk 0 9 "serve" (85/100) (25/100), Stroke.mk 12 13 "serve" (9/10) (3/10)],
      t.end_frame - t.start_frame + 1 ≥ 4 ∧
        ((1:ℤ) ≤ 4 → t.start_frame ≤ t.end_frame)) :=
  ⟨C5_segment_length_floor.1
      [{ frame_idx := 0, right_shoulder_abduction := 60 },
       { frame_idx := 1, right_shoulder_abduction := 60 },
       { frame_idx := 2, right_shoulder_abduction := 60 }] none (by decide),
   fun t ht => C5_segment_length_floor.2 (GateCfg.mk (78/100) (18/100) 4 30)
     [Stroke.mk 0 9 "serve" (85/100) (25/100), Stroke.mk 12 13 "serve" (9/10) (3/10)]
     t ht⟩

end Pipeline

namespace Tracker

lemma notFoundUpdate_target (cfg : Config) (s : TrackState) (inp : FrameInput) :
    (notFoundUpdate cfg s inp).target_track_id = s.target_track_id ∨
      ((notFoundUpdate cfg s inp).target_track_id.isSome ∧
        (∃ px py, s.prev_bbox_center = some (px, py) ∧
          relockScan cfg px py inp.tracks ≠ none)) := by
  rcases hs : s.target_track_id with _ | id
  · left
    rcases hp : s.prev_bbox_center with _ | c
    · simp [notFoundUpdate, hs, hp]
    · obtain ⟨px, py⟩ := c
      simp [notFoundUpdate, hs, hp]
  · rcases hp : s.prev_bbox_center with _ | c
    · left
      simp [notFoundUpdate, hs, hp]
    · obtain ⟨px, py⟩ := c
      rcases hr : relockScan cfg px py inp.tracks with _ | newId
      · left
        simp [notFoundUpdate, hs, hp, hr]
      · right
        constructor
        · rcases hf : findTrack inp.tracks newId with _ | t <;>
            simp [notFoundUpdate, hs, hp, hr, hf]
        · exact ⟨px, py, rfl, by rw [hr]; simp⟩

lemma notFoundUpdate_isSome (cfg : Config) (s : TrackState) (inp : FrameInput)
    (h : s.target_track_id.isSome) :
    (notFoundUpdate cfg s inp).target_track_id.isSome := by
  rcases notFoundUpdate_target cfg s inp with he | ⟨hs, _⟩
  · rw [he]; exact h
  · exact hs

lemma notFoundUpdate_target_of_no_relock (cfg : Config) (s : TrackState)
    (inp : FrameInput)
    (h : ¬ ∃ px py, s.prev_bbox_center = some (px, py) ∧
      relockScan cfg px py inp.tracks ≠ none) :
    (notFoundUpdate cfg s inp).target_track_id = s.target_track_id := by
  rcases notFoundUpdate_target cfg s inp with he | ⟨_, hr⟩
  · exact he
  · exact absurd hr h

lemma notFoundUpdate_lost (cfg : Config) (s : TrackState) (inp : FrameInput) :
    (notFoundUpdate cfg s inp).lost_frames =
      if s.lost_frames + 1 > 300 ∧ s.target_track_id.isSome then 0
      else s.lost_frames + 1 := by
  rcases hs : s.target_track_id with _ | id
  · rcases hp : s.prev_bbox_center with _ | c
    · simp [notFoundUpdate, hs, hp]
    · obtain ⟨px, py⟩ := c
      simp [notFoundUpdate, hs, hp]
  · rcases hp : s.prev_bbox_center with _ | c
    · simp [notFoundUpdate, hs, hp]
    · obtain ⟨px, py⟩ := c
      rcases hr : relockScan cfg px py inp.tracks with _ | newId
      · simp [notFoundUpdate, hs, hp, hr]
      · rcases hf : findTrack inp.tracks newId with _ | t <;>
          simp [notFoundUpdate, hs, hp, hr, hf]

/-- Once locked, a frame transition never produces the unlocked state. -/
lemma stepFrame_isSome (cfg : Config) (s : TrackState) (inp : FrameInput)
    (h : s.target_track_id.isSome) :
    (stepFrame cfg s inp).target_track_id.isSome := by
  unfold stepFrame
  by_cases hemp : inp.tracks.isEmpty
  · simpa [hemp] using h
  · rw [if_neg hemp]
    rcases hs : s.target_track_id with _ | id
    · rw [hs] at h; simp at h
    · dsimp only
      rcases hf : findTrack inp.tracks id with _ | t
      · dsimp only
        rcases hd : fallbackDet cfg s.prev_bbox_center inp.detections with _ | d
        · exact notFoundUpdate_isSome cfg _ inp (by simp [hs])
        · simp [hs]
      · simp [hs]

/-- When the recovery branch does not fire, a frame transition keeps the
locked identifier unchanged. -/
lemma stepFrame_target_stable (cfg : Config) (s : TrackState) (inp : FrameInput)
    (id : ℤ) (h : s.target_track_id = some id)
    (hnr : ¬ recoveryFires cfg s inp) :
    (stepFrame cfg s inp).target_track_id = some id := by
  unfold stepFrame
  by_cases hemp : inp.tracks.isEmpty
  · simpa [hemp] using h
  · rw [if_neg hemp]
    rw [h]
    dsimp only
    rcases hf : findTrack inp.tracks id with _ | t
    · dsimp only
      rcases hd : fallbackDet cfg s.prev_bbox_center inp.detections with _ | d
      · have hnolock : ¬ ∃ px py, s.prev_bbox_center = some (px, py) ∧
            relockScan cfg px py inp.tracks ≠ none := by
          intro hex
          exact hnr ⟨by simpa [List.isEmpty_iff] using hemp,
            ⟨id, h, hf⟩, hd, hex⟩
        rw [notFoundUpdate_target_of_no_relock cfg s inp hnolock]
        exact h
      · simp
    · simp

/-- The loss-counter timeout: when the locked target stays missing past 300
frames, the counter is reset to zero while the identifier is retained. -/
lemma stepFrame_timeout (cfg : Config) (s : TrackState) (inp : FrameInput)
    (id : ℤ) (h : s.target_track_id = some id)
    (hemp : ¬ inp.tracks.isEmpty)
    (hf : findTrack inp.tracks id = none)
    (hd : fallbackDet cfg s.prev_bbox_center inp.detections = none)
    (hlost : s.lost_frames + 1 > 300) :
    (stepFrame cfg s inp).lost_frames = 0 ∧
      (stepFrame cfg s inp).target_track_id.isSome := by
  constructor
  · unfold stepFrame
    rw [if_neg hemp, h]
    dsimp only
    rw [hf]
    dsimp only
    rw [hd]
    rw [notFoundUpdate_lost]
    simp [h, hlost]
  · exact stepFrame_isSome cfg s inp (by simp [h])

/-- C1: once the tracker's locked identifier (`target_track_id`) is set, no
per-frame transition resets it to the unset state; the 300-frame loss timeout
resets only the loss counter and retains the identifier; and whenever the
re-acquisition (recovery) branch does not fire, the locked identifier after
the frame equals the locked identifier before it. -/
theorem C1_lock_invariant (cfg : Config) (s : TrackState) (inp : FrameInput)
    (id : ℤ) (h : s.target_track_id = some id) :
    (stepFrame cfg s inp).target_track_id.isSome ∧
    (¬ recoveryFires cfg s inp →
      (stepFrame cfg s inp).target_track_id = some id) ∧
    (¬ inp.tracks.isEmpty → findTrack inp.tracks id = none →
      fallbackDet cfg s.prev_bbox_center inp.detections = none →
      s.lost_frames + 1 > 300 →
      (stepFrame cfg s inp).lost_frames = 0 ∧
        (stepFrame cfg s inp).target_track_id.isSome) :=
  ⟨stepFrame_isSome cfg s inp (by simp [h]),
   fun hnr => stepFrame_target_stable cfg s inp id h hnr,
   fun hemp hf hd hlost => stepFrame_timeout cfg s inp id h hemp hf hd hlost⟩

/-- Concrete instantiation of `C1_lock_invariant`: a locked state (id 7, loss
counter at 300) meets a frame whose single track has a different id and no
detections; the lock is kept, the counter resets. -/
theorem C1_lock_invariant_witness :
    (stepFrame { width := 1920, height := 1080 }
        { target_track_id := some 7, lost_frames := 300, prev_bbox_center := none }
        { i := 5,
          tracks := [{ x1 := 0, y1 := 0, x2 := 10, y2 := 10, tid := 9, conf := 1 }],
          detections := [] }).target_track_id.isSome ∧
    (¬ recoveryFires { width := 1920, height := 1080 }
        { target_track_id := some 7, lost_frames := 300, prev_bbox_center := none }
        { i := 5,
          tracks := [{ x1 := 0, y1 := 0, x2 := 10, y2 := 10, tid := 9, conf := 1 }],
          detections := [] } →
      (stepFrame { width := 1920, height := 1080 }
        { target_track_id := some 7, lost_frames := 300, prev_bbox_center := none }
        { i := 5,
          tracks := [{ x1 := 0, y1 := 0, x2 := 10, y2 := 10, tid := 9, conf := 1 }],
          detections := [] }).target_track_id = some 7) ∧
    (¬ ({ i := 5,
          tracks := [{ x1 := 0, y1 := 0, x2 := 10, y2 := 10, tid := 9, conf := 1 }],
          detections := [] } : FrameInput).tracks.isEmpty →
      findTrack [{ x1 := 0, y1 := 0, x2 := 10, y2 := 10, tid := 9, conf := 1 }] 7 = none →
      fallbackDet { width := 1920, height := 1080 } none [] = none →
      300 + 1 > 300 →
      (stepFrame { width := 1920, height := 1080 }
        { target_track_id := some 7, lost_frames := 300, prev_bbox_center := none }
        { i := 5,
          tracks := [{ x1 := 0, y1 := 0, x2 := 10, y2 := 10, tid := 9, conf := 1 }],
          detections := [] }).lost_frames = 0 ∧
        (stepFrame { width := 1920, height := 1080 }
          { target_track_id := some 7, lost_frames := 300, prev_bbox_center := none }
          { i := 5,
            tracks := [{ x1 := 0, y1 := 0, x2 := 10, y2 := 10, tid := 9, conf := 1 }],
            detections := [] }).target_track_id.isSome) :=
  C1_lock_invariant { width := 1920, height := 1080 }
    { target_track_id := some 7, lost_frames := 300, prev_bbox_center := none }
    { i := 5,
      tracks := [{ x1 := 0, y1 := 0, x2 := 10, y2 := 10, tid := 9, conf := 1 }],
      detections := [] } 7 rfl

end Tracker
